import Mathlib

/-!
Shallow embedding of the `DAOMAFHE` Solidity contract
(`contracts/DAO_MA_Fhe.sol`).

Modelling conventions:
* Addresses, uint256 values and timestamps are `Nat`.
* FHE ciphertext handles (`euint32`) are the inductive `CtHandle`:
  `uninit` is the default (zero) storage handle, `enc v` is
  `FHE.asEuint32(v)`, `addH a b` is `FHE.add a b`, and `inited` is the
  result of `FHE.init` on an uninitialized memory value.  The handle
  algebra is kept symbolic because the contract never inspects
  ciphertext contents.
* `keccak256(abi.encode(cts, address(this)))` is modelled by the
  injective constructor `HashVal.keccak`; `HashVal.zeroH` is the
  default `bytes32(0)` storage value.  Injectivity models the standard
  collision-freeness assumption on keccak256.
* The encryption co-processor (`FHE.requestDecryption`) issues globally
  fresh, strictly increasing request identifiers; this is modelled by
  the `nextRequestId` counter carried in the state.  The outcome of
  `FHE.checkSignatures` on `(requestId, cleartexts, proof)` is an
  explicit boolean argument `sigOk` of the callback, and the decoded
  `abi.decode(cleartexts, (uint256))` value is the `cleartexts : Nat`
  argument itself.
* EVM revert semantics: a Solidity `revert` aborts the call and rolls
  back every storage write made during it.  Each operation is therefore
  a function into `Except Err (ContractState × List Event)`: an `error`
  result carries no state, and the transaction wrapper `run` restores
  the pre-state on failure - exactly the ledger's semantics.  In
  particular the `processed = true` assignments that the source places
  immediately before a `revert` in `myCallback` are rolled back with
  the revert and are deliberately absent from the error branches here.
-/

/-- Symbolic FHE ciphertext handle (`euint32`). -/
inductive CtHandle where
  | uninit : CtHandle
  | inited : CtHandle
  | enc : Nat → CtHandle
  | addH : CtHandle → CtHandle → CtHandle
  deriving DecidableEq, Repr

/-- `bytes32` values holding commitments: either the default zero word or
a keccak256 image of `abi.encode(cts, thisAddress)`. -/
inductive HashVal where
  | zeroH : HashVal
  | keccak : List CtHandle → Nat → HashVal
  deriving DecidableEq, Repr

/-- The contract's typed errors.  `batchNotClosed` is the
`BatchNotClosed()` identifier the source reverts with in
`requestBatchResultDecryption` (referenced there without a matching
declaration); `invalidArgument` is reused by the source for the
cooldown-zero, batch-already-open, already-submitted and no-data
conditions. -/
inductive Err where
  | notOwner
  | notProvider
  | pausedErr
  | cooldownActive
  | batchNotOpen
  | batchClosedErr
  | batchNotClosed
  | invalidArgument
  | replayDetected
  | stateMismatch
  | decryptionFailed
  deriving DecidableEq, Repr

/-- Emitted events. -/
inductive Event where
  | providerAdded : Nat → Event
  | providerRemoved : Nat → Event
  | pausedEv : Nat → Event
  | unpausedEv : Nat → Event
  | cooldownSet : Nat → Nat → Event
  | batchOpened : Nat → Event
  | batchClosedEv : Nat → Event
  | dataSubmitted : Nat → Nat → Nat → Event
  | decryptionRequested : Nat → Nat → Event
  | decryptionCompleted : Nat → Nat → Nat → Event
  deriving DecidableEq, Repr

/-- `struct DecryptionContext { uint256 batchId; bytes32 stateHash; bool processed; }` -/
structure DecryptionContext where
  batchId : Nat
  stateHash : HashVal
  processed : Bool
  deriving DecidableEq, Repr

/-- The default (never-written) storage value of a `DecryptionContext`. -/
def defaultCtx : DecryptionContext :=
  { batchId := 0, stateHash := HashVal.zeroH, processed := false }

/-- The contract's storage, plus `selfAddr` (`address(this)`) and the
co-processor's request-id counter `nextRequestId`. -/
structure ContractState where
  selfAddr : Nat
  owner : Nat
  providers : Nat → Bool
  paused : Bool
  cooldownSeconds : Nat
  lastSubmissionTime : Nat → Nat
  lastDecryptionRequestTime : Nat → Nat
  currentBatchId : Nat
  batchOpen : Bool
  encryptedDataSum : Nat → CtHandle
  dataCount : Nat → Nat
  hasSubmitted : Nat → Nat → Bool
  decryptionContexts : Nat → DecryptionContext
  nextRequestId : Nat

/-- Point update of a `Nat`-keyed mapping. -/
def upd {β : Type} (f : Nat → β) (k : Nat) (v : β) : Nat → β :=
  fun x => if x = k then v else f x

theorem upd_same {β : Type} (f : Nat → β) (k : Nat) (v : β) : upd f k v k = v := by
  simp [upd]

theorem upd_other {β : Type} (f : Nat → β) (k : Nat) (v : β) (x : Nat) (h : x ≠ k) :
    upd f k v x = f x := by
  simp [upd, h]

/-- `(bool initialized, ...) = FHE.isInitialized(val)`. -/
def isInit (v : CtHandle) : Bool :=
  v ≠ CtHandle.uninit

/-- `_initIfNeeded` on a memory value: returns the (possibly freshly
initialized) handle; storage is untouched by the source here. -/
def initIfNeeded (v : CtHandle) : CtHandle :=
  if isInit v then v else CtHandle.inited

/-- `_hashCiphertexts(cts) = keccak256(abi.encode(cts, address(this)))`. -/
def hashCiphertexts (cts : List CtHandle) (selfAddr : Nat) : HashVal :=
  HashVal.keccak cts selfAddr

/-- `constructor()`: deployer becomes owner and an initial provider,
cooldown 60 s, batch 0, closed, unpaused. -/
def construct (selfAddr sender : Nat) : ContractState where
  selfAddr := selfAddr
  owner := sender
  providers := fun a => a = sender
  paused := false
  cooldownSeconds := 60
  lastSubmissionTime := fun _ => 0
  lastDecryptionRequestTime := fun _ => 0
  currentBatchId := 0
  batchOpen := false
  encryptedDataSum := fun _ => CtHandle.uninit
  dataCount := fun _ => 0
  hasSubmitted := fun _ _ => false
  decryptionContexts := fun _ => defaultCtx
  nextRequestId := 0

/-- Result of one contract call: either the new state with its emitted
events, or a revert carrying a typed error. -/
abbrev CallResult := Except Err (ContractState × List Event)

/-- `addProvider(address)`: owner-only, idempotent set insert. -/
def addProvider (sender provider : Nat) (s : ContractState) : CallResult :=
  if sender ≠ s.owner then .error .notOwner else
  .ok ({ s with providers := upd s.providers provider true },
       [Event.providerAdded provider])

/-- `removeProvider(address)`: owner-only set removal. -/
def removeProvider (sender provider : Nat) (s : ContractState) : CallResult :=
  if sender ≠ s.owner then .error .notOwner else
  .ok ({ s with providers := upd s.providers provider false },
       [Event.providerRemoved provider])

/-- `setCooldownSeconds(uint256)`: owner-only, nonzero argument.  Note:
the source places no `whenNotPaused` modifier on this function. -/
def setCooldownSeconds (sender v : Nat) (s : ContractState) : CallResult :=
  if sender ≠ s.owner then .error .notOwner else
  if v = 0 then .error .invalidArgument else
  .ok ({ s with cooldownSeconds := v }, [Event.cooldownSet s.cooldownSeconds v])

/-- `pause()`: owner-only, fails when already paused. -/
def pauseOp (sender : Nat) (s : ContractState) : CallResult :=
  if sender ≠ s.owner then .error .notOwner else
  if s.paused then .error .pausedErr else
  .ok ({ s with paused := true }, [Event.pausedEv sender])

/-- `unpause()`: owner-only, unconditional. -/
def unpauseOp (sender : Nat) (s : ContractState) : CallResult :=
  if sender ≠ s.owner then .error .notOwner else
  .ok ({ s with paused := false }, [Event.unpausedEv sender])

/-- `openBatch()`: owner-only, not paused, batch must be closed;
advances the batch id and initializes the fresh batch's accumulator to
`FHE.asEuint32(0)` and its count to 0. -/
def openBatch (sender : Nat) (s : ContractState) : CallResult :=
  if sender ≠ s.owner then .error .notOwner else
  if s.paused then .error .pausedErr else
  if s.batchOpen then .error .invalidArgument else
  let b := s.currentBatchId + 1
  .ok ({ s with
          currentBatchId := b
          batchOpen := true
          encryptedDataSum := upd s.encryptedDataSum b (CtHandle.enc 0)
          dataCount := upd s.dataCount b 0 },
       [Event.batchOpened b])

/-- `closeBatch()`: owner-only, not paused, batch must be open. -/
def closeBatch (sender : Nat) (s : ContractState) : CallResult :=
  if sender ≠ s.owner then .error .notOwner else
  if s.paused then .error .pausedErr else
  if ¬ s.batchOpen then .error .batchNotOpen else
  .ok ({ s with batchOpen := false }, [Event.batchClosedEv s.currentBatchId])

/-- `submitData(uint256)`: provider-only, not paused, submission
cooldown, batch open, not yet submitted this batch; folds the encoded
value into the accumulator. -/
def submitData (sender now encryptedValue : Nat) (s : ContractState) : CallResult :=
  if ¬ s.providers sender then .error .notProvider else
  if s.paused then .error .pausedErr else
  if now < s.lastSubmissionTime sender + s.cooldownSeconds then .error .cooldownActive else
  if ¬ s.batchOpen then .error .batchNotOpen else
  if s.hasSubmitted s.currentBatchId sender then .error .invalidArgument else
  let encryptedVal := initIfNeeded (CtHandle.enc encryptedValue)
  let b := s.currentBatchId
  .ok ({ s with
          encryptedDataSum := upd s.encryptedDataSum b (CtHandle.addH (s.encryptedDataSum b) encryptedVal)
          dataCount := upd s.dataCount b (s.dataCount b + 1)
          hasSubmitted := upd s.hasSubmitted b (upd (s.hasSubmitted b) sender true)
          lastSubmissionTime := upd s.lastSubmissionTime sender now },
       [Event.dataSubmitted sender b encryptedValue])

/-- `requestBatchResultDecryption()`: provider-only, not paused,
decryption-request cooldown, batch closed, nonzero count; stores a
fresh `DecryptionContext` keyed by the co-processor-issued request id,
committing to the hash of the current accumulator. -/
def requestBatchResultDecryption (sender now : Nat) (s : ContractState) : CallResult :=
  if ¬ s.providers sender then .error .notProvider else
  if s.paused then .error .pausedErr else
  if now < s.lastDecryptionRequestTime sender + s.cooldownSeconds then .error .cooldownActive else
  if s.batchOpen then .error .batchNotClosed else
  if s.dataCount s.currentBatchId = 0 then .error .invalidArgument else
  let cts := [s.encryptedDataSum s.currentBatchId]
  let stateHash := hashCiphertexts cts s.selfAddr
  let requestId := s.nextRequestId
  .ok ({ s with
          decryptionContexts := upd s.decryptionContexts requestId
            { batchId := s.currentBatchId, stateHash := stateHash, processed := false }
          nextRequestId := requestId + 1
          lastDecryptionRequestTime := upd s.lastDecryptionRequestTime sender now },
       [Event.decryptionRequested requestId s.currentBatchId])

/-- `myCallback(uint256, bytes, bytes)`: the decryption-resolution
callback, callable by anyone.  `cleartexts` is the decoded uint256 and
`sigOk` the verdict of `FHE.checkSignatures`.  Each failing branch of
the source assigns `processed = true` and then reverts; the revert
rolls that assignment back, so the error branches leave no state. -/
def myCallback (requestId cleartexts : Nat) (sigOk : Bool) (s : ContractState) : CallResult :=
  if (s.decryptionContexts requestId).processed then .error .replayDetected else
  let batchId := (s.decryptionContexts requestId).batchId
  let currentEncryptedSum := s.encryptedDataSum batchId
  if ¬ isInit currentEncryptedSum then .error .decryptionFailed else
  let currentStateHash := hashCiphertexts [currentEncryptedSum] s.selfAddr
  if currentStateHash ≠ (s.decryptionContexts requestId).stateHash then .error .stateMismatch else
  if sigOk then
    .ok ({ s with
            decryptionContexts := upd s.decryptionContexts requestId
              { s.decryptionContexts requestId with processed := true } },
         [Event.decryptionCompleted requestId batchId cleartexts])
  else .error .decryptionFailed

/-- One public call with its sender (and timestamp where the source
reads `block.timestamp`). -/
inductive Op where
  | addProvider : Nat → Nat → Op
  | removeProvider : Nat → Nat → Op
  | setCooldownSeconds : Nat → Nat → Op
  | pauseOp : Nat → Op
  | unpauseOp : Nat → Op
  | openBatch : Nat → Op
  | closeBatch : Nat → Op
  | submitData : Nat → Nat → Nat → Op
  | requestBatchResultDecryption : Nat → Nat → Op
  | myCallback : Nat → Nat → Bool → Op
  deriving DecidableEq, Repr

/-- Dispatch one call. -/
def step (op : Op) (s : ContractState) : CallResult :=
  match op with
  | .addProvider sender p => addProvider sender p s
  | .removeProvider sender p => removeProvider sender p s
  | .setCooldownSeconds sender v => setCooldownSeconds sender v s
  | .pauseOp sender => pauseOp sender s
  | .unpauseOp sender => unpauseOp sender s
  | .openBatch sender => openBatch sender s
  | .closeBatch sender => closeBatch sender s
  | .submitData sender now v => submitData sender now v s
  | .requestBatchResultDecryption sender now => requestBatchResultDecryption sender now s
  | .myCallback r c b => myCallback r c b s

/-- Transaction wrapper: a revert restores the pre-state and discards
all events (EVM semantics). -/
def run (op : Op) (s : ContractState) : ContractState × List Event × Option Err :=
  match step op s with
  | .ok (s2, evs) => (s2, evs, none)
  | .error e => (s, [], some e)

/-- Apply a sequence of calls, each failing call leaving the state
unchanged. -/
def runSeq (ops : List Op) (s : ContractState) : ContractState :=
  match ops with
  | [] => s
  | op :: rest => runSeq rest (run op s).1

/-! ## Reachability and state invariants -/

/-- Storage slots the contract has never written still hold their
defaults: every request id at or beyond the co-processor's counter has
the default context, and no batch beyond the current one has any
submission flag set. -/
def StateInv (s : ContractState) : Prop :=
  (∀ r, s.nextRequestId ≤ r → s.decryptionContexts r = defaultCtx) ∧
  (∀ b q, s.currentBatchId < b → s.hasSubmitted b q = false)

/-- States reachable from deployment by any sequence of public calls
(failing calls leave the state unchanged). -/
inductive Reachable : ContractState → Prop where
  | base (selfAddr sender : Nat) : Reachable (construct selfAddr sender)
  | stepR {s : ContractState} (op : Op) : Reachable s → Reachable (run op s).1

theorem stateInv_construct (selfAddr sender : Nat) : StateInv (construct selfAddr sender) := by
  constructor
  · intro r _; rfl
  · intro b q _; rfl

theorem stateInv_step {s s2 : ContractState} {op : Op} {evs : List Event}
    (hinv : StateInv s) (h : step op s = .ok (s2, evs)) : StateInv s2 := by
  obtain ⟨h1, h2⟩ := hinv
  cases op with
  | addProvider sender p =>
    simp only [step, addProvider] at h
    split at h
    · exact absurd h (by simp)
    · simp only [Except.ok.injEq, Prod.mk.injEq] at h
      obtain ⟨h, _⟩ := h
      subst h
      exact ⟨h1, h2⟩
  | removeProvider sender p =>
    simp only [step, removeProvider] at h
    split at h
    · exact absurd h (by simp)
    · simp only [Except.ok.injEq, Prod.mk.injEq] at h
      obtain ⟨h, _⟩ := h
      subst h
      exact ⟨h1, h2⟩
  | setCooldownSeconds sender v =>
    simp only [step, setCooldownSeconds] at h
    split at h
    · exact absurd h (by simp)
    · split at h
      · exact absurd h (by simp)
      · simp only [Except.ok.injEq, Prod.mk.injEq] at h
        obtain ⟨h, _⟩ := h
        subst h
        exact ⟨h1, h2⟩
  | pauseOp sender =>
    simp only [step, pauseOp] at h
    split at h
    · exact absurd h (by simp)
    · split at h
      · exact absurd h (by simp)
      · simp only [Except.ok.injEq, Prod.mk.injEq] at h
        obtain ⟨h, _⟩ := h
        subst h
        exact ⟨h1, h2⟩
  | unpauseOp sender =>
    simp only [step, unpauseOp] at h
    split at h
    · exact absurd h (by simp)
    · simp only [Except.ok.injEq, Prod.mk.injEq] at h
      obtain ⟨h, _⟩ := h
      subst h
      exact ⟨h1, h2⟩
  | openBatch sender =>
    simp only [step, openBatch] at h
    split at h
    · exact absurd h (by simp)
    · split at h
      · exact absurd h (by simp)
      · split at h
        · exact absurd h (by simp)
        · simp only [Except.ok.injEq, Prod.mk.injEq] at h
          obtain ⟨h, _⟩ := h
          subst h
          refine ⟨h1, ?_⟩
          intro b q hb
          exact h2 b q (Nat.lt_of_succ_lt hb)
  | closeBatch sender =>
    simp only [step, closeBatch] at h
    split at h
    · exact absurd h (by simp)
    · split at h
      · exact absurd h (by simp)
      · split at h
        · exact absurd h (by simp)
        · simp only [Except.ok.injEq, Prod.mk.injEq] at h
          obtain ⟨h, _⟩ := h
          subst h
          exact ⟨h1, h2⟩
  | submitData sender now v =>
    simp only [step, submitData] at h
    split at h
    · exact absurd h (by simp)
    · split at h
      · exact absurd h (by simp)
      · split at h
        · exact absurd h (by simp)
        · split at h
          · exact absurd h (by simp)
          · split at h
            · exact absurd h (by simp)
            · simp only [Except.ok.injEq, Prod.mk.injEq] at h
              obtain ⟨h, _⟩ := h
              subst h
              refine ⟨h1, ?_⟩
              intro b q hb
              have hne : b ≠ s.currentBatchId := Nat.ne_of_gt hb
              simp only [upd_other _ _ _ _ hne]
              exact h2 b q hb
  | requestBatchResultDecryption sender now =>
    simp only [step, requestBatchResultDecryption] at h
    split at h
    · exact absurd h (by simp)
    · split at h
      · exact absurd h (by simp)
      · split at h
        · exact absurd h (by simp)
        · split at h
          · exact absurd h (by simp)
          · split at h
            · exact absurd h (by simp)
            · simp only [Except.ok.injEq, Prod.mk.injEq] at h
              obtain ⟨h, _⟩ := h
              subst h
              refine ⟨?_, h2⟩
              intro r hr
              dsimp only at hr ⊢
              have hne : r ≠ s.nextRequestId := by omega
              simp only [upd_other _ _ _ _ hne]
              exact h1 r (by omega)
  | myCallback r c b =>
    have hlt : r < s.nextRequestId := by
      by_contra hge
      have hdef : s.decryptionContexts r = defaultCtx := h1 r (Nat.le_of_not_lt hge)
      simp only [step, myCallback, hdef, defaultCtx] at h
      by_cases hi : isInit (s.encryptedDataSum 0)
      · simp [hi, hashCiphertexts] at h
      · simp [hi] at h
    simp only [step, myCallback] at h
    split at h
    · exact absurd h (by simp)
    · split at h
      · exact absurd h (by simp)
      · split at h
        · exact absurd h (by simp)
        · split at h
          · simp only [Except.ok.injEq, Prod.mk.injEq] at h
            obtain ⟨h, _⟩ := h
            subst h
            refine ⟨?_, h2⟩
            intro r2 hr2
            dsimp only at hr2 ⊢
            have hne : r2 ≠ r := by omega
            simp only [upd_other _ _ _ _ hne]
            exact h1 r2 hr2
          · exact absurd h (by simp)

theorem stateInv_run {s : ContractState} (op : Op) (hinv : StateInv s) : StateInv (run op s).1 := by
  unfold run
  cases hstep : step op s with
  | ok p => exact stateInv_step hinv (by rw [hstep])
  | error e => simpa using hinv

theorem reachable_stateInv {s : ContractState} (h : Reachable s) : StateInv s := by
  induction h with
  | base selfAddr sender => exact stateInv_construct selfAddr sender
  | stepR op _ ih => exact stateInv_run op ih

/-! ## Concrete example states -/

/-- A freshly deployed contract at address 7, deployed by account 1. -/
def exampleInit : ContractState := construct 7 1

/-- Deployer opens batch 1, submits value 5 at t=60, closes the batch,
and requests decryption at t=120; the pending request has id 0. -/
def exampleRequested : ContractState :=
  (run (Op.requestBatchResultDecryption 1 120)
    ((run (Op.closeBatch 1)
      ((run (Op.submitData 1 60 5)
        ((run (Op.openBatch 1) exampleInit).1)).1)).1)).1

/-! ## Claim theorems -/

/-- Claim C10: immediately after construction, the deploying account is
the owner and already a member of the provider set, cooldown-seconds is
60, current-batch-id is 0, batch-open is false, and the system is not
paused. -/
theorem C10_constructor_initial_state (selfAddr sender : Nat) :
    (construct selfAddr sender).owner = sender ∧
    (construct selfAddr sender).providers sender = true ∧
    (construct selfAddr sender).cooldownSeconds = 60 ∧
    (construct selfAddr sender).currentBatchId = 0 ∧
    (construct selfAddr sender).batchOpen = false ∧
    (construct selfAddr sender).paused = false := by
  refine ⟨rfl, ?_, rfl, rfl, rfl, rfl⟩
  simp [construct]

/-- Claim C4: every failing public call leaves the post-state equal to
the pre-state and emits nothing - reverts roll back all writes. -/
theorem C4_failure_preserves_state (op : Op) (s : ContractState) (e : Err)
    (h : (run op s).2.2 = some e) :
    (run op s).1 = s ∧ (run op s).2.1 = [] := by
  unfold run at h ⊢
  cases hstep : step op s with
  | ok p => rw [hstep] at h; simp at h
  | error e2 => exact ⟨rfl, rfl⟩

/-- Witness for C4: a concrete failing call (`pause` by a non-owner)
fails with `NotOwner` and leaves the deployment state untouched. -/
theorem C4_failure_preserves_state_witness :
    (run (Op.pauseOp 2) exampleInit).2.2 = some Err.notOwner ∧
    ((run (Op.pauseOp 2) exampleInit).1 = exampleInit ∧
     (run (Op.pauseOp 2) exampleInit).2.1 = []) :=
  ⟨rfl, C4_failure_preserves_state (Op.pauseOp 2) exampleInit Err.notOwner rfl⟩

/-- Claim C9: `openBatch` by the owner while unpaused fails with the
batch-already-open error (`InvalidArgument` in the source) when a batch
is open, and otherwise advances the batch id by one, initializes the
fresh batch (accumulator = encoded zero, count 0, no submission flags),
and opens it. -/
theorem C9_openBatch_spec (s : ContractState) (a : Nat)
    (ha : s.owner = a) (hnp : s.paused = false) (hinv : StateInv s) :
    (s.batchOpen = true → step (Op.openBatch a) s = Except.error Err.invalidArgument) ∧
    (s.batchOpen = false →
      (run (Op.openBatch a) s).2.2 = none ∧
      (run (Op.openBatch a) s).2.1 = [Event.batchOpened (s.currentBatchId + 1)] ∧
      (run (Op.openBatch a) s).1.currentBatchId = s.currentBatchId + 1 ∧
      (run (Op.openBatch a) s).1.batchOpen = true ∧
      (run (Op.openBatch a) s).1.encryptedDataSum (s.currentBatchId + 1) = CtHandle.enc 0 ∧
      (run (Op.openBatch a) s).1.dataCount (s.currentBatchId + 1) = 0 ∧
      ∀ q, (run (Op.openBatch a) s).1.hasSubmitted (s.currentBatchId + 1) q = false) := by
  constructor
  · intro hb
    simp [step, openBatch, ha, hnp, hb]
  · intro hb
    refine ⟨?_, ?_, ?_, ?_, ?_, ?_, ?_⟩ <;>
      simp [run, step, openBatch, ha, hnp, hb, upd_same]
    intro q
    exact hinv.2 (s.currentBatchId + 1) q (Nat.lt_succ_self _)

/-- Witness for C9: opening the first batch on a fresh deployment gives
batch id 1, open, with a zero accumulator and no contributions. -/
theorem C9_openBatch_spec_witness :
    (run (Op.openBatch 1) exampleInit).2.2 = none ∧
    (run (Op.openBatch 1) exampleInit).1.currentBatchId = 1 ∧
    (run (Op.openBatch 1) exampleInit).1.batchOpen = true ∧
    (run (Op.openBatch 1) exampleInit).1.encryptedDataSum 1 = CtHandle.enc 0 ∧
    (run (Op.openBatch 1) exampleInit).1.dataCount 1 = 0 := by
  have h := (C9_openBatch_spec exampleInit 1 rfl rfl (stateInv_construct 7 1)).2 rfl
  exact ⟨h.1, h.2.2.1, h.2.2.2.1, h.2.2.2.2.1, h.2.2.2.2.2.1⟩

/-- Counterexample for C1: the source has no `UnknownRequest` error at
all.  A callback for a request-id with no stored context (id 0 on a
fresh deployment) fails with `DecryptionFailed` - the very same error
kind produced when a stored, pending, state-matching request is
resolved with an invalid proof - so the unknown-request failure is not
a distinct error kind. -/
theorem C1_counterexample :
    exampleInit.decryptionContexts 0 = defaultCtx ∧
    myCallback 0 0 true exampleInit = Except.error Err.decryptionFailed ∧
    exampleRequested.decryptionContexts 0 ≠ defaultCtx ∧
    (exampleRequested.decryptionContexts 0).processed = false ∧
    myCallback 0 30 false exampleRequested = Except.error Err.decryptionFailed := by
  refine ⟨rfl, rfl, ?_, rfl, rfl⟩
  decide

/-- Claim C1 (amended): a `resolveDecryption` call whose request-id has
no stored context always fails, but with `DecryptionFailed` (or
`StateMismatch` if the default batch-0 accumulator slot were
initialized, which never happens in reachable states); there is no
dedicated `UnknownRequest` error. -/
theorem C1_unknown_request_always_fails (s : ContractState) (r c : Nat) (b : Bool)
    (h : s.decryptionContexts r = defaultCtx) :
    myCallback r c b s = Except.error Err.decryptionFailed ∨
    myCallback r c b s = Except.error Err.stateMismatch := by
  by_cases hi : isInit (s.encryptedDataSum 0)
  · right
    simp [myCallback, h, defaultCtx, hi, hashCiphertexts]
  · left
    simp [myCallback, h, defaultCtx, hi]

/-- Witness for the amended C1 at request id 0 on a fresh deployment. -/
theorem C1_unknown_request_always_fails_witness :
    myCallback 0 0 true exampleInit = Except.error Err.decryptionFailed ∨
    myCallback 0 0 true exampleInit = Except.error Err.stateMismatch :=
  C1_unknown_request_always_fails exampleInit 0 0 true rfl

/-! ## Monotonicity of the processed flag -/

theorem callback_replay {s : ContractState} {r : Nat}
    (hp : (s.decryptionContexts r).processed = true) (c : Nat) (b : Bool) :
    myCallback r c b s = Except.error Err.replayDetected := by
  simp [myCallback, hp]

theorem processed_mono_step {s s2 : ContractState} {op : Op} {evs : List Event}
    (hinv : StateInv s) (h : step op s = .ok (s2, evs)) (r : Nat)
    (hp : (s.decryptionContexts r).processed = true) :
    (s2.decryptionContexts r).processed = true := by
  cases op with
  | addProvider sender p =>
    simp only [step, addProvider] at h
    split at h
    · exact absurd h (by simp)
    · simp only [Except.ok.injEq, Prod.mk.injEq] at h
      obtain ⟨h, _⟩ := h
      subst h
      exact hp
  | removeProvider sender p =>
    simp only [step, removeProvider] at h
    split at h
    · exact absurd h (by simp)
    · simp only [Except.ok.injEq, Prod.mk.injEq] at h
      obtain ⟨h, _⟩ := h
      subst h
      exact hp
  | setCooldownSeconds sender v =>
    simp only [step, setCooldownSeconds] at h
    split at h
    · exact absurd h (by simp)
    · split at h
      · exact absurd h (by simp)
      · simp only [Except.ok.injEq, Prod.mk.injEq] at h
        obtain ⟨h, _⟩ := h
        subst h
        exact hp
  | pauseOp sender =>
    simp only [step, pauseOp] at h
    split at h
    · exact absurd h (by simp)
    · split at h
      · exact absurd h (by simp)
      · simp only [Except.ok.injEq, Prod.mk.injEq] at h
        obtain ⟨h, _⟩ := h
        subst h
        exact hp
  | unpauseOp sender =>
    simp only [step, unpauseOp] at h
    split at h
    · exact absurd h (by simp)
    · simp only [Except.ok.injEq, Prod.mk.injEq] at h
      obtain ⟨h, _⟩ := h
      subst h
      exact hp
  | openBatch sender =>
    simp only [step, openBatch] at h
    split at h
    · exact absurd h (by simp)
    · split at h
      · exact absurd h (by simp)
      · split at h
        · exact absurd h (by simp)
        · simp only [Except.ok.injEq, Prod.mk.injEq] at h
          obtain ⟨h, _⟩ := h
          subst h
          exact hp
  | closeBatch sender =>
    simp only [step, closeBatch] at h
    split at h
    · exact absurd h (by simp)
    · split at h
      · exact absurd h (by simp)
      · split at h
        · exact absurd h (by simp)
        · simp only [Except.ok.injEq, Prod.mk.injEq] at h
          obtain ⟨h, _⟩ := h
          subst h
          exact hp
  | submitData sender now v =>
    simp only [step, submitData] at h
    split at h
    · exact absurd h (by simp)
    · split at h
      · exact absurd h (by simp)
      · split at h
        · exact absurd h (by simp)
        · split at h
          · exact absurd h (by simp)
          · split at h
            · exact absurd h (by simp)
            · simp only [Except.ok.injEq, Prod.mk.injEq] at h
              obtain ⟨h, _⟩ := h
              subst h
              exact hp
  | requestBatchResultDecryption sender now =>
    simp only [step, requestBatchResultDecryption] at h
    split at h
    · exact absurd h (by simp)
    · split at h
      · exact absurd h (by simp)
      · split at h
        · exact absurd h (by simp)
        · split at h
          · exact absurd h (by simp)
          · split at h
            · exact absurd h (by simp)
            · simp only [Except.ok.injEq, Prod.mk.injEq] at h
              obtain ⟨h, _⟩ := h
              subst h
              have hne : r ≠ s.nextRequestId := by
                intro he
                have hd := hinv.1 r (by omega)
                rw [hd] at hp
                simp [defaultCtx] at hp
              dsimp only
              simp only [upd_other _ _ _ _ hne]
              exact hp
  | myCallback r2 c b =>
    simp only [step, myCallback] at h
    split at h
    · exact absurd h (by simp)
    · split at h
      · exact absurd h (by simp)
      · split at h
        · exact absurd h (by simp)
        · split at h
          · simp only [Except.ok.injEq, Prod.mk.injEq] at h
            obtain ⟨h, _⟩ := h
            subst h
            dsimp only
            by_cases hr : r = r2
            · subst hr
              simp only [upd_same]
            · simp only [upd_other _ _ _ _ hr]
              exact hp
          · exact absurd h (by simp)

theorem processed_mono_run {s : ContractState} (hinv : StateInv s) (op : Op) (r : Nat)
    (hp : (s.decryptionContexts r).processed = true) :
    ((run op s).1.decryptionContexts r).processed = true := by
  unfold run
  cases hstep : step op s with
  | ok p => exact processed_mono_step hinv (by rw [hstep]) r hp
  | error e => exact hp

theorem stateInv_runSeq {s : ContractState} (ops : List Op) (hinv : StateInv s) :
    StateInv (runSeq ops s) := by
  induction ops generalizing s with
  | nil => exact hinv
  | cons op rest ih => exact ih (stateInv_run op hinv)

theorem processed_mono_runSeq {s : ContractState} (hinv : StateInv s) (ops : List Op) (r : Nat)
    (hp : (s.decryptionContexts r).processed = true) :
    ((runSeq ops s).decryptionContexts r).processed = true := by
  induction ops generalizing s with
  | nil => exact hp
  | cons op rest ih => exact ih (stateInv_run op hinv) (processed_mono_run hinv op r hp)

theorem callback_success_sets_processed {s s2 : ContractState} {evs : List Event}
    {r c : Nat} {b : Bool}
    (h : step (Op.myCallback r c b) s = .ok (s2, evs)) :
    (s2.decryptionContexts r).processed = true := by
  simp only [step, myCallback] at h
  split at h
  · exact absurd h (by simp)
  · split at h
    · exact absurd h (by simp)
    · split at h
      · exact absurd h (by simp)
      · split at h
        · simp only [Except.ok.injEq, Prod.mk.injEq] at h
          obtain ⟨h, _⟩ := h
          subst h
          dsimp only
          simp only [upd_same]
        · exact absurd h (by simp)

/-- Claim C2: in every state satisfying the storage invariant (which
all reachable states do), the `processed` flag of every decryption
context is monotone under every public call (never reset to false), a
successful resolution sets it, and once it is set every later
`myCallback` for the same request-id - after any further sequence of
calls - fails with `ReplayDetected`. -/
theorem C2_processed_monotone_replay (s : ContractState) (hinv : StateInv s) :
    (∀ op r, (s.decryptionContexts r).processed = true →
      ((run op s).1.decryptionContexts r).processed = true) ∧
    (∀ r c b s2 evs, step (Op.myCallback r c b) s = Except.ok (s2, evs) →
      (s2.decryptionContexts r).processed = true) ∧
    (∀ ops r c b, (s.decryptionContexts r).processed = true →
      step (Op.myCallback r c b) (runSeq ops s) = Except.error Err.replayDetected) := by
  refine ⟨?_, ?_, ?_⟩
  · intro op r hp
    exact processed_mono_run hinv op r hp
  · intro r c b s2 evs h
    exact callback_success_sets_processed h
  · intro ops r c b hp
    exact callback_replay (processed_mono_runSeq hinv ops r hp) c b

/-- The state after the pending request of `exampleRequested` has been
successfully resolved (request id 0, cleartext 30, valid proof). -/
def exampleResolved : ContractState :=
  (run (Op.myCallback 0 30 true) exampleRequested).1

theorem reachable_exampleResolved : Reachable exampleResolved :=
  Reachable.stepR _ (Reachable.stepR _ (Reachable.stepR _ (Reachable.stepR _
    (Reachable.stepR _ (Reachable.base 7 1)))))

/-- Witness for C2: the concrete request 0 is resolved, and a repeat
callback for it - even after an intervening call - fails with
`ReplayDetected`. -/
theorem C2_processed_monotone_replay_witness :
    (exampleResolved.decryptionContexts 0).processed = true ∧
    step (Op.myCallback 0 30 true) (runSeq [Op.unpauseOp 1] exampleResolved) =
      Except.error Err.replayDetected :=
  ⟨rfl, (C2_processed_monotone_replay exampleResolved
      (reachable_stateInv reachable_exampleResolved)).2.2 [Op.unpauseOp 1] 0 30 true rfl⟩

/-! ## Commitment matching and the state-mismatch path -/

/-- `exampleRequested` with batch 1's accumulator forcibly replaced, so
the stored commitment of request 0 no longer matches. -/
def exampleMismatch : ContractState :=
  { exampleRequested with
      encryptedDataSum := upd exampleRequested.encryptedDataSum 1 (CtHandle.enc 9) }

/-- Claim C3: for a pending request whose batch accumulator now differs
from the one captured at request time, resolution fails with
`StateMismatch` (and hence emits nothing); and any successful
resolution implies the recomputed commitment equals the stored one. -/
theorem C3_commitment_binding (s : ContractState) (r c : Nat) (b : Bool) (a : CtHandle)
    (hpend : (s.decryptionContexts r).processed = false)
    (hstored : (s.decryptionContexts r).stateHash = hashCiphertexts [a] s.selfAddr)
    (hinit : isInit (s.encryptedDataSum (s.decryptionContexts r).batchId) = true)
    (hdiff : s.encryptedDataSum (s.decryptionContexts r).batchId ≠ a) :
    step (Op.myCallback r c b) s = Except.error Err.stateMismatch ∧
    (∀ (r2 c2 : Nat) (b2 : Bool) (s2 : ContractState) (evs : List Event),
      step (Op.myCallback r2 c2 b2) s = Except.ok (s2, evs) →
      hashCiphertexts [s.encryptedDataSum (s.decryptionContexts r2).batchId] s.selfAddr =
        (s.decryptionContexts r2).stateHash) := by
  constructor
  · have hne : hashCiphertexts [s.encryptedDataSum (s.decryptionContexts r).batchId] s.selfAddr ≠
        (s.decryptionContexts r).stateHash := by
      rw [hstored]
      simp only [hashCiphertexts]
      intro hcontr
      injection hcontr with h1 h2
      injection h1 with h3 h4
      exact hdiff h3
    simp [step, myCallback, hpend, hinit, hne]
  · intro r2 c2 b2 s2 evs h
    simp only [step, myCallback] at h
    split at h
    · exact absurd h (by simp)
    · split at h
      · exact absurd h (by simp)
      · split at h
        · exact absurd h (by simp)
        · rename_i hcond
          rw [not_not] at hcond
          exact hcond

/-- Witness for C3: resolving request 0 against the drifted accumulator
of `exampleMismatch` fails with `StateMismatch`. -/
theorem C3_commitment_binding_witness :
    step (Op.myCallback 0 30 true) exampleMismatch = Except.error Err.stateMismatch :=
  (C3_commitment_binding exampleMismatch 0 30 true
    (CtHandle.addH (CtHandle.enc 0) (CtHandle.enc 5)) rfl rfl rfl (by decide)).1

/-- Claim C5 (refuted, code bug): the source assigns `processed = true`
immediately before the step-3 `revert StateMismatch()`, with the
comment "Mark as processed to prevent replay", but the revert rolls the
assignment back.  Concretely: after a `StateMismatch` failure the
request's context is still unresolved (`processed = false`), the state
is unchanged, and the identical callback can be retried - it fails with
`StateMismatch` again, not with `ReplayDetected` - so the context is
not in a terminal, non-retryable state. -/
theorem C5_mark_rolled_back :
    step (Op.myCallback 0 30 true) exampleMismatch = Except.error Err.stateMismatch ∧
    (run (Op.myCallback 0 30 true) exampleMismatch).1 = exampleMismatch ∧
    ((run (Op.myCallback 0 30 true) exampleMismatch).1.decryptionContexts 0).processed = false ∧
    step (Op.myCallback 0 30 true) ((run (Op.myCallback 0 30 true) exampleMismatch).1) =
      Except.error Err.stateMismatch := by
  exact ⟨rfl, rfl, rfl, rfl⟩

/-! ## Submission uniqueness -/

/-- Deployer opens batch 1 on the fresh deployment. -/
def exampleOpen : ContractState := (run (Op.openBatch 1) exampleInit).1

/-- Provider 1 has submitted value 3 to the open batch 1 at t=100. -/
def exampleSubmitted : ContractState := (run (Op.submitData 1 100 3) exampleOpen).1

/-- Counterexample for C6: after a successful submission, an immediate
second submission by the same provider for the same (still current,
still open) batch fails with `CooldownActive`, not with the
already-contributed error (`InvalidArgument`) the claim requires. -/
theorem C6_counterexample :
    (run (Op.submitData 1 100 3) exampleOpen).2.2 = none ∧
    exampleSubmitted.batchOpen = true ∧
    exampleSubmitted.providers 1 = true ∧
    exampleSubmitted.paused = false ∧
    exampleSubmitted.hasSubmitted exampleSubmitted.currentBatchId 1 = true ∧
    step (Op.submitData 1 100 9) exampleSubmitted = Except.error Err.cooldownActive ∧
    Err.cooldownActive ≠ Err.invalidArgument := by
  refine ⟨rfl, rfl, by decide, rfl, by decide, rfl, by decide⟩

/-- Claim C6 (amended): once a provider has submitted for the current
batch, every further `submitData` call by that provider while that
batch is current fails and leaves the state (in particular the
contributor count and submission flags) unchanged; the error is the
already-contributed `InvalidArgument` when the provider, pause,
cooldown and batch-open checks pass, but an earlier guard error (such
as `CooldownActive`) otherwise. -/
theorem C6_submit_at_most_once (s : ContractState) (p now v : Nat)
    (hsub : s.hasSubmitted s.currentBatchId p = true) :
    (∃ e, step (Op.submitData p now v) s = Except.error e) ∧
    (run (Op.submitData p now v) s).1 = s ∧
    (s.providers p = true → s.paused = false →
      s.lastSubmissionTime p + s.cooldownSeconds ≤ now → s.batchOpen = true →
      step (Op.submitData p now v) s = Except.error Err.invalidArgument) := by
  have hfail : ∃ e, step (Op.submitData p now v) s = Except.error e := by
    simp only [step, submitData, hsub, if_true]
    split
    · exact ⟨_, rfl⟩
    · split
      · exact ⟨_, rfl⟩
      · split
        · exact ⟨_, rfl⟩
        · split
          · exact ⟨_, rfl⟩
          · exact ⟨_, rfl⟩
  refine ⟨hfail, ?_, ?_⟩
  · obtain ⟨e, he⟩ := hfail
    unfold run
    rw [he]
  · intro hpr hnp hcd hbo
    simp [step, submitData, hpr, hnp, hbo, hsub, Nat.not_lt.mpr hcd]

/-- Witness for the amended C6: the second submission attempt after the
cooldown has elapsed (t=200) fails with the already-contributed
`InvalidArgument` and changes nothing. -/
theorem C6_submit_at_most_once_witness :
    (run (Op.submitData 1 200 9) exampleSubmitted).1 = exampleSubmitted ∧
    step (Op.submitData 1 200 9) exampleSubmitted = Except.error Err.invalidArgument := by
  have h := C6_submit_at_most_once exampleSubmitted 1 200 9 (by decide)
  exact ⟨h.2.1, h.2.2 (by decide) rfl (by decide) rfl⟩

/-! ## Pause gating -/

/-- The fresh deployment after the owner pauses the system. -/
def examplePaused : ContractState := (run (Op.pauseOp 1) exampleInit).1

/-- Counterexample for C7: while paused, `setCooldownSeconds` - an
owner operation outside the access registry - succeeds and changes the
cooldown instead of failing with the pause error. -/
theorem C7_counterexample :
    examplePaused.paused = true ∧
    (run (Op.setCooldownSeconds 1 5) examplePaused).2.2 = none ∧
    (run (Op.setCooldownSeconds 1 5) examplePaused).1.cooldownSeconds = 5 ∧
    step (Op.setCooldownSeconds 1 5) examplePaused ≠ Except.error Err.pausedErr := by
  refine ⟨rfl, rfl, rfl, ?_⟩
  intro h
  have hsome : (run (Op.setCooldownSeconds 1 5) examplePaused).2.2 = some Err.pausedErr := by
    unfold run
    rw [h]
  exact Option.noConfusion ((rfl : (run (Op.setCooldownSeconds 1 5) examplePaused).2.2 = none) ▸ hsome)

/-- Claim C7 (amended): while paused, `openBatch`, `closeBatch`,
`submitData` and `requestBatchResultDecryption` fail with the pause
error (once their authorization guard, which the source checks first,
passes); but `setCooldownSeconds` is not pause-gated - it succeeds for
the owner - and `myCallback` is not pause-gated either: it never
reports the pause error. -/
theorem C7_pause_gating (s : ContractState) (a p : Nat)
    (hp : s.paused = true) (ha : s.owner = a) (hpr : s.providers p = true) :
    step (Op.openBatch a) s = Except.error Err.pausedErr ∧
    step (Op.closeBatch a) s = Except.error Err.pausedErr ∧
    (∀ now v, step (Op.submitData p now v) s = Except.error Err.pausedErr) ∧
    (∀ now, step (Op.requestBatchResultDecryption p now) s = Except.error Err.pausedErr) ∧
    (∀ v, v ≠ 0 → (run (Op.setCooldownSeconds a v) s).2.2 = none ∧
      (run (Op.setCooldownSeconds a v) s).1.cooldownSeconds = v ∧
      (run (Op.setCooldownSeconds a v) s).1.paused = true) ∧
    (∀ r c b, step (Op.myCallback r c b) s ≠ Except.error Err.pausedErr) := by
  refine ⟨?_, ?_, ?_, ?_, ?_, ?_⟩
  · simp [step, openBatch, ha, hp]
  · simp [step, closeBatch, ha, hp]
  · intro now v
    simp [step, submitData, hpr, hp]
  · intro now
    simp [step, requestBatchResultDecryption, hpr, hp]
  · intro v hv
    refine ⟨?_, ?_, ?_⟩ <;> simp [run, step, setCooldownSeconds, ha, hv, hp]
  · intro r c b h
    simp only [step, myCallback] at h
    split at h
    · simp at h
    · split at h
      · simp at h
      · split at h
        · simp at h
        · split at h
          · simp at h
          · simp at h

/-- Witness for the amended C7 on the concrete paused deployment. -/
theorem C7_pause_gating_witness :
    step (Op.openBatch 1) examplePaused = Except.error Err.pausedErr ∧
    step (Op.submitData 1 200 4) examplePaused = Except.error Err.pausedErr ∧
    (run (Op.setCooldownSeconds 1 5) examplePaused).2.2 = none := by
  have h := C7_pause_gating examplePaused 1 1 rfl rfl (by decide)
  exact ⟨h.1, h.2.2.1 200 4, (h.2.2.2.2.1 5 (by decide)).1⟩

/-! ## Decryption-request guards -/

/-- Counterexample for C8: with an open batch, a provider calling
`requestBatchResultDecryption` before their cooldown has elapsed (here
at t=0 on a fresh deployment, where `0 < 0 + 60`) is rejected with
`CooldownActive`, not with the batch-still-open error the claim
requires for every provider caller. -/
theorem C8_counterexample :
    exampleOpen.batchOpen = true ∧
    exampleOpen.providers 1 = true ∧
    exampleOpen.paused = false ∧
    step (Op.requestBatchResultDecryption 1 0) exampleOpen = Except.error Err.cooldownActive ∧
    Err.cooldownActive ≠ Err.batchNotClosed := by
  refine ⟨rfl, by decide, rfl, rfl, by decide⟩

/-- Claim C8 (amended): for a provider caller that passes the pause and
cooldown guards, `requestBatchResultDecryption` fails with the
batch-still-open error (`BatchNotClosed` in the source) whenever the
batch is open, and with the no-data error (`InvalidArgument`) whenever
the batch is closed and the current batch's contribution count is zero
- independently of which provider calls. -/
theorem C8_request_guards (s : ContractState) (p now : Nat)
    (hpr : s.providers p = true) (hnp : s.paused = false)
    (hcd : s.lastDecryptionRequestTime p + s.cooldownSeconds ≤ now) :
    (s.batchOpen = true →
      step (Op.requestBatchResultDecryption p now) s = Except.error Err.batchNotClosed) ∧
    (s.batchOpen = false → s.dataCount s.currentBatchId = 0 →
      step (Op.requestBatchResultDecryption p now) s = Except.error Err.invalidArgument) := by
  constructor
  · intro hb
    simp [step, requestBatchResultDecryption, hpr, hnp, hb, Nat.not_lt.mpr hcd]
  · intro hb hc
    simp [step, requestBatchResultDecryption, hpr, hnp, hb, hc, Nat.not_lt.mpr hcd]

/-- Witness for the amended C8: after the cooldown (t=200) the request
on the open batch fails with the batch-still-open error, and on the
fresh (closed, empty) deployment it fails with the no-data error. -/
theorem C8_request_guards_witness :
    step (Op.requestBatchResultDecryption 1 200) exampleOpen = Except.error Err.batchNotClosed ∧
    step (Op.requestBatchResultDecryption 1 200) exampleInit = Except.error Err.invalidArgument :=
  ⟨(C8_request_guards exampleOpen 1 200 (by decide) rfl (by decide)).1 rfl,
   (C8_request_guards exampleInit 1 200 (by decide) rfl (by decide)).2 rfl rfl⟩
